import Mathlib

/-!
Verification of the sockpp stream-socket core: a shallow embedding of the
library's stream reliability layer (`read_n`, `write_n`, the string `write`
overload, timeouts), the Internet-address type and its resolution logic
(`inet_address.cpp`), the socket-pair and clone factories, and the
Unix-domain echo example client (`unecho.cpp`), together with theorems
about the claims of the specification.

Machine integers are modelled as `Nat`/`Int` with explicit reduction
modulo `2^w` where the code relies on wrap-around.  Fallible operations
return `Except`/`Option` values mirroring the library's `result<T>` type.
Blocking OS calls are modelled by passing in the finite list of outcomes
the OS would hand back; `none` stands for "the call would block forever".
-/

namespace Sockpp

/-- Error conditions distinguished by the stream I/O loops.  `interrupted`
is the POSIX `EINTR`/`std::errc::interrupted` condition; every other
platform error code is carried by `other`. -/
inductive Errc where
  | interrupted
  | other (code : Nat)
deriving DecidableEq, Repr

/-- Outcome of a single OS-level read or write attempt on a stream socket:
either `k` bytes were transferred, or the OS reported an error. -/
inductive IOOutcome where
  | ok (k : Nat)
  | err (e : Errc)
deriving DecidableEq, Repr

/-- Modelled from the spec: the loop body of `stream_socket::read_n`
(declared at `stream_socket.h:171`; its definition is not among the
provided sources).  Per the spec, the loop repeats single reads until `n`
bytes have accumulated; an interrupted call is retried transparently; a
zero-byte read means peer-closed and terminates the loop returning the
accumulated count as a success; any other error aborts the loop and is
propagated unchanged.  `outs` is the list of OS read outcomes, `acc` the
bytes accumulated so far; a single OS read never returns more than the
number of bytes requested, hence the `min`. -/
def read_n_go : List IOOutcome → Nat → Nat → Option (Except Errc Nat)
  | [], n, acc => if n ≤ acc then some (.ok acc) else none
  | o :: rest, n, acc =>
    if n ≤ acc then some (.ok acc)
    else
      match o with
      | .ok 0 => some (.ok acc)
      | .ok (k + 1) => read_n_go rest n (acc + min (k + 1) (n - acc))
      | .err .interrupted => read_n_go rest n acc
      | .err (.other c) => some (.error (.other c))

/-- Modelled from the spec: `stream_socket::read_n(buf, n)` run against the
OS read outcomes `outs`. -/
def read_n (outs : List IOOutcome) (n : Nat) : Option (Except Errc Nat) :=
  read_n_go outs n 0

/-- Modelled from the spec: the loop body of `stream_socket::write_n`
(declared at `stream_socket.h:211`; its definition is not among the
provided sources).  Symmetric to `read_n_go` except that a zero-byte
transfer is a transient condition and is retried, not treated as
peer-closed. -/
def write_n_go : List IOOutcome → Nat → Nat → Option (Except Errc Nat)
  | [], n, acc => if n ≤ acc then some (.ok acc) else none
  | o :: rest, n, acc =>
    if n ≤ acc then some (.ok acc)
    else
      match o with
      | .ok k => write_n_go rest n (acc + min k (n - acc))
      | .err .interrupted => write_n_go rest n acc
      | .err (.other c) => some (.error (.other c))

/-- Modelled from the spec: `stream_socket::write_n(buf, n)` run against
the OS write outcomes `outs`. -/
def write_n (outs : List IOOutcome) (n : Nat) : Option (Except Errc Nat) :=
  write_n_go outs n 0

/-- Modelled from the spec: the scalar `stream_socket::write(buf, n)` — a
single OS write attempt, which may transfer fewer than `n` bytes and
performs no internal retry. -/
def write1 : List IOOutcome → Nat → Option (Except Errc Nat)
  | [], _ => none
  | .ok k :: _, n => some (.ok (min k n))
  | .err e :: _, _ => some (.error e)

/-- `stream_socket::write(const string& s)` from `stream_socket.h:219`:
`return write_n(s.data(), s.size());` — the string's byte buffer and byte
count are handed to the whole-buffer loop. -/
def write_str (outs : List IOOutcome) (s : String) : Option (Except Errc Nat) :=
  write_n outs s.utf8ByteSize

/-- Bytes transferred by one OS outcome (errors transfer nothing). -/
def chunkBytes : IOOutcome → Nat
  | .ok k => k
  | .err _ => 0

/-- An outcome admissible before peer close: a read of at least one byte,
or an interrupted call (which `read_n` retries). -/
def goodChunk : IOOutcome → Bool
  | .ok k => decide (0 < k)
  | .err .interrupted => true
  | .err _ => false

/-- Total bytes delivered by a list of OS outcomes. -/
def bytesOf (l : List IOOutcome) : Nat := (l.map chunkBytes).sum

theorem read_n_go_run (n : Nat) :
    ∀ (lead rest : List IOOutcome) (acc : Nat),
      (∀ c ∈ lead, goodChunk c = true) → acc + bytesOf lead < n →
      read_n_go (lead ++ IOOutcome.ok 0 :: rest) n acc = some (.ok (acc + bytesOf lead)) := by
  intro lead
  induction lead with
  | nil =>
    intro rest acc _ hlt
    simp only [bytesOf, List.map_nil, List.sum_nil, Nat.add_zero] at hlt ⊢
    simp [read_n_go, Nat.not_le.mpr hlt]
  | cons c tl ih =>
    intro rest acc hg hlt
    have hgc : goodChunk c = true := hg c (by simp)
    have hgt : ∀ x ∈ tl, goodChunk x = true := fun x hx => hg x (by simp [hx])
    have hbytes : bytesOf (c :: tl) = chunkBytes c + bytesOf tl := by
      simp [bytesOf]
    match c with
    | .ok 0 => simp [goodChunk] at hgc
    | .ok (k + 1) =>
      have hlt' : acc + (k + 1) + bytesOf tl < n := by
        simpa [hbytes, chunkBytes, Nat.add_assoc] using hlt
      have hacc : ¬ n ≤ acc := by omega
      have hmin : min (k + 1) (n - acc) = k + 1 := by omega
      calc read_n_go ((IOOutcome.ok (k + 1) :: tl) ++ IOOutcome.ok 0 :: rest) n acc
          = read_n_go (tl ++ IOOutcome.ok 0 :: rest) n (acc + (k + 1)) := by
            simp [read_n_go, hacc, hmin]
        _ = some (.ok (acc + (k + 1) + bytesOf tl)) := ih rest (acc + (k + 1)) hgt hlt'
        _ = some (.ok (acc + bytesOf (IOOutcome.ok (k + 1) :: tl))) := by
            simp [hbytes, chunkBytes, Nat.add_assoc]
    | .err .interrupted =>
      have hlt' : acc + bytesOf tl < n := by
        simpa [hbytes, chunkBytes] using hlt
      have hacc : ¬ n ≤ acc := by omega
      calc read_n_go ((IOOutcome.err Errc.interrupted :: tl) ++ IOOutcome.ok 0 :: rest) n acc
          = read_n_go (tl ++ IOOutcome.ok 0 :: rest) n acc := by
            simp [read_n_go, hacc]
        _ = some (.ok (acc + bytesOf tl)) := ih rest acc hgt hlt'
        _ = some (.ok (acc + bytesOf (IOOutcome.err Errc.interrupted :: tl))) := by
            simp [hbytes, chunkBytes]
    | .err (.other e) => simp [goodChunk] at hgc

/-- Claim C1: for every connected stream socket and requested byte count
`n`, if the peer closes after delivering exactly `bytesOf lead` bytes
(`lead` being the successful and interrupted inner reads before the
zero-byte read, with `bytesOf lead < n`), then `read_n(buf, n)` returns a
success `Result` holding the accumulated count — not an error — and stops
at the zero-byte read, issuing no further read (whatever outcomes `rest`
would follow the close are never consulted).  Moreover inside the loop an
interrupted call is retried transparently, and any other inner read error
aborts the loop and is propagated unchanged. -/
theorem read_n_peer_close_returns_count (lead rest : List IOOutcome) (n : Nat)
    (hg : ∀ c ∈ lead, goodChunk c = true) (hs : bytesOf lead < n) :
    read_n (lead ++ IOOutcome.ok 0 :: rest) n = some (.ok (bytesOf lead)) ∧
    (∀ (tl : List IOOutcome) (acc : Nat), acc < n →
      read_n_go (IOOutcome.err Errc.interrupted :: tl) n acc = read_n_go tl n acc) ∧
    (∀ (c : Nat) (tl : List IOOutcome) (acc : Nat), acc < n →
      read_n_go (IOOutcome.err (Errc.other c) :: tl) n acc =
        some (.error (Errc.other c))) := by
  refine ⟨?_, ?_, ?_⟩
  · have h := read_n_go_run n lead rest 0 hg (by simpa using hs)
    simpa [read_n] using h
  · intro tl acc hacc
    simp [read_n_go, Nat.not_le.mpr hacc]
  · intro c tl acc hacc
    simp [read_n_go, Nat.not_le.mpr hacc]

/-- Concrete witness for C1: the peer sends 2 bytes, the reader is once
interrupted, the peer sends 1 more byte and closes; `read_n` of 5 bytes
returns a success holding 3. -/
theorem read_n_peer_close_returns_count_witness :
    read_n ([IOOutcome.ok 2, IOOutcome.err Errc.interrupted, IOOutcome.ok 1] ++
        IOOutcome.ok 0 :: [IOOutcome.ok 9]) 5 = some (.ok 3) :=
  (read_n_peer_close_returns_count
    [IOOutcome.ok 2, IOOutcome.err Errc.interrupted, IOOutcome.ok 1]
    [IOOutcome.ok 9] 5 (by decide) (by decide)).1

/-- Claim C10: the string overload `write(s)` on a stream socket is exactly
`write_n(s.data(), s.size())`, hence carries the whole-buffer looping
semantics; concretely, against OS outcomes that deliver the five bytes of
`"hello"` in two short writes of 3 and 2 bytes, the string write returns 5,
while the scalar single-attempt `write(buf, n)` on the same outcomes
returns the short count 3. -/
theorem write_string_delegates_to_write_n :
    (∀ (outs : List IOOutcome) (s : String),
      write_str outs s = write_n outs s.utf8ByteSize) ∧
    write_str [IOOutcome.ok 3, IOOutcome.ok 2] "hello" = some (.ok 5) ∧
    write1 [IOOutcome.ok 3, IOOutcome.ok 2] "hello".utf8ByteSize = some (.ok 3) := by
  exact ⟨fun outs s => rfl, rfl, rfl⟩

/-! ## Internet addresses (`inet_address.cpp`, POSIX branch) -/

/-- The two `std::error_code` categories that `inet_address::resolve_name`
can put into a `result`: the generic system category (used for socket I/O
errors and for `errno` values) and the `getaddrinfo` resolver category
(`gai_errc`). -/
inductive ErrCategory where
  | system
  | gai
deriving DecidableEq, Repr

/-- A platform `std::error_code`: a category plus a numeric value. -/
structure ErrorCode where
  cat : ErrCategory
  val : Int
deriving DecidableEq, Repr

/-- The default-constructed (no-error) `std::error_code`. -/
def noErr : ErrorCode := ⟨.system, 0⟩

/-- The `EAI_SYSTEM` result value of `getaddrinfo` (glibc value). -/
def EAI_SYSTEM : Int := -11

/-- The OS facilities `resolve_name` consults: `inet_pton` (numeric-literal
parse; `some a` is the parsed 32-bit address already in network byte order,
`none` is a parse failure), `getaddrinfo` (name-service call returning
either the resolved network-order address or a nonzero `gai` status), and
the thread's current `errno` (read by `result` last_error when
`getaddrinfo` reports `EAI_SYSTEM`). -/
structure NetEnv where
  pton : String → Option Nat
  gai_lookup : String → Except Int Nat
  errno : Int

/-- `inet_address::resolve_name` from `inet_address.cpp:76-106` (POSIX
branch).  The second component of the pair is instrumentation: it counts
how many name-service (`getaddrinfo`) calls were made.  The control flow
mirrors the source: a successful `inet_pton` returns immediately;
otherwise `getaddrinfo` is called, a zero status yields the resolved
address, `EAI_SYSTEM` yields the current `errno` in the system category,
and any other status is wrapped in the `gai` category. -/
def resolve_name (env : NetEnv) (saddr : String) : Except ErrorCode Nat × Nat :=
  match env.pton saddr with
  | some a => (.ok a, 0)
  | none =>
    match env.gai_lookup saddr with
    | .ok a => (.ok a, 1)
    | .error e =>
      if e = EAI_SYSTEM then (.error ⟨.system, env.errno⟩, 1)
      else (.error ⟨.gai, e⟩, 1)

/-- The `sockaddr_in` fields the code reads and writes.  `sin_addr` is the
32-bit address as stored (network byte order), `sin_port` the 16-bit port
as stored (network byte order). -/
structure SockaddrIn where
  sin_family : Nat
  sin_addr : Nat
  sin_port : Nat
deriving DecidableEq, Repr

/-- The `AF_INET` address-family tag. -/
def AF_INET : Nat := 2

/-- A zero-initialized `sockaddr_in` (the state of `addr_` when a
constructor fails before assigning it). -/
def sockaddrZero : SockaddrIn := ⟨0, 0, 0⟩

/-- Byte swap of a 16-bit value: `htons`/`ntohs` on a little-endian host. -/
def byteswap16 (x : Nat) : Nat := x % 256 * 256 + x / 256 % 256

/-- `htons` on a little-endian host: reduce to 16 bits and byte-swap, so
that the value's in-memory bytes are in network (big-endian) order. -/
def htons (x : Nat) : Nat := byteswap16 (x % 65536)

/-- `ntohs` on a little-endian host (same 16-bit byte swap). -/
def ntohs (x : Nat) : Nat := byteswap16 (x % 65536)

/-- Byte swap of a 32-bit value (little-endian host `htonl`/`ntohl`). -/
def byteswap32 (x : Nat) : Nat :=
  x % 256 * 16777216 + x / 256 % 256 * 65536 + x / 65536 % 256 * 256 + x / 16777216 % 256

/-- `htonl` on a little-endian host: reduce to 32 bits and byte-swap. -/
def htonl (x : Nat) : Nat := byteswap32 (x % 4294967296)

/-- The `sockpp::inet_address` value type: it holds exactly one
`sockaddr_in` (`addr_`). -/
structure inet_address where
  addr_ : SockaddrIn
deriving DecidableEq, Repr

/-- `inet_address::inet_address(uint32_t addr, in_port_t port)` from
`inet_address.cpp:47-54`: sets `sin_family = AF_INET`,
`sin_addr.s_addr = htonl(addr)`, `sin_port = htons(port)` (the
BSD-only `sin_len` field is not modelled). -/
def inet_address.ofHostPort (addr port : Nat) : inet_address :=
  ⟨{ sin_family := AF_INET, sin_addr := htonl addr, sin_port := htons port }⟩

/-- `inet_address::create(const string&, in_port_t)` from
`inet_address.cpp:110-123`: resolve the host, propagate a resolution error
unchanged, otherwise store the resolved (already network-order) address
and the byte-swapped port. -/
def inet_address.create (env : NetEnv) (saddr : String) (port : Nat) :
    Except ErrorCode inet_address :=
  match (resolve_name env saddr).1 with
  | .error e => .error e
  | .ok a => .ok ⟨{ sin_family := AF_INET, sin_addr := a, sin_port := htons port }⟩

/-- A thrown `sockpp::system_error` carrying an error code. -/
structure SystemErr where
  code : ErrorCode
deriving DecidableEq, Repr

/-- The raising constructor of `inet_address` from a host string and port,
`inet_address.cpp:58-64`: on resolution failure it throws
`system_error` holding the result's error (modelled as `Except.error`),
otherwise the resolved address becomes the object's state. -/
def inet_address.ofStringThrow (env : NetEnv) (saddr : String) (port : Nat) :
    Except SystemErr inet_address :=
  match inet_address.create env saddr port with
  | .error e => .error ⟨e⟩
  | .ok a => .ok a

/-- The `error()` accessor of `result` on `inet_address`: the carried
error on failure, the default (no-error) code on success. -/
def errOf : Except ErrorCode inet_address → ErrorCode
  | .error e => e
  | .ok _ => noErr

/-- The non-raising constructor of `inet_address` from a host string, port
and output `error_code&`, `inet_address.cpp:66-72`: it always stores the
result's `error()` into the output code, and assigns `addr_` only when
the resolution succeeded (otherwise `addr_` keeps its zero
initialization). -/
def inet_address.ofStringEc (env : NetEnv) (saddr : String) (port : Nat) :
    ErrorCode × inet_address :=
  (errOf (inet_address.create env saddr port),
   match inet_address.create env saddr port with
   | .ok a => a
   | .error _ => ⟨sockaddrZero⟩)

/-- `inet_ntop(AF_INET, ...)` on a little-endian host: renders the four
in-memory bytes of the stored 32-bit value, in memory order, as decimal
numbers separated by dots.  With a sufficiently large buffer
(`INET_ADDRSTRLEN`, as the code supplies) it cannot fail. -/
def inet_ntop_v4 (v : Nat) : String :=
  toString (v % 256) ++ "." ++ toString (v / 256 % 256) ++ "." ++
    toString (v / 65536 % 256) ++ "." ++ toString (v / 16777216 % 256)

/-- The `port()` accessor of `inet_address` (declared in the
`inet_address.h` header, which is not among the provided sources;
modelled from the spec's "16-bit port (network byte order)"): the stored
network-order port converted back to host order. -/
def inet_address.port (a : inet_address) : Nat := ntohs a.addr_.sin_port

/-- `inet_address::to_string` from `inet_address.cpp:127-131`:
`inet_ntop` of the stored address, then `":"`, then the port printed in
decimal. -/
def inet_address.to_string (a : inet_address) : String :=
  inet_ntop_v4 a.addr_.sin_addr ++ ":" ++ toString a.port

/-- The stream-output operator for `inet_address` from
`inet_address.cpp:135-141`: appends `inet_ntop` of the stored address,
`":"`, and the decimal port to the stream (modelled as a string being
accumulated). -/
def inet_address.print (os : String) (a : inet_address) : String :=
  os ++ inet_ntop_v4 a.addr_.sin_addr ++ ":" ++ toString a.port

/-- Claim C2 counterexample: when `inet_pton` fails and `getaddrinfo`
fails with `EAI_SYSTEM` while `errno` is 104 (`ECONNRESET`, a socket I/O
error code), `resolve_name` returns an error in the *system* category —
the same code/category a socket I/O failure would produce — not in the
resolver (`gai`) category.  So a resolver-call failure does not always
surface in the resolver's distinct error category. -/
theorem resolve_name_eai_system_cx :
    resolve_name ⟨fun _ => none, fun _ => .error (-11), 104⟩ "example.com" =
      (.error ⟨.system, 104⟩, 1) ∧
    (ErrorCode.mk .system 104).cat ≠ ErrCategory.gai := by
  exact ⟨rfl, by decide⟩

/-- Claim C2 (amended): for every textual host, resolution first attempts
a numeric-literal parse with no name-service call (a successful parse
returns its value with zero `getaddrinfo` calls); only on parse failure is
the name service called (exactly once), and a resolver failure surfaces as
an error `Result` in the resolver's `gai` error category — except when the
resolver reports `EAI_SYSTEM`, in which case the thread's `errno` is
returned in the system category instead. -/
theorem resolve_name_fast_path_and_categories (env : NetEnv) (s : String) :
    (∀ a, env.pton s = some a → resolve_name env s = (.ok a, 0)) ∧
    (env.pton s = none →
      (resolve_name env s).2 = 1 ∧
      (∀ a, env.gai_lookup s = .ok a → (resolve_name env s).1 = .ok a) ∧
      (∀ e, env.gai_lookup s = .error e → e ≠ EAI_SYSTEM →
        (resolve_name env s).1 = .error ⟨.gai, e⟩) ∧
      (env.gai_lookup s = .error EAI_SYSTEM →
        (resolve_name env s).1 = .error ⟨.system, env.errno⟩)) := by
  constructor
  · intro a ha
    simp [resolve_name, ha]
  · intro hp
    refine ⟨?_, ?_, ?_, ?_⟩
    · simp only [resolve_name, hp]
      match hg : env.gai_lookup s with
      | .ok a => simp
      | .error e =>
        by_cases he : e = EAI_SYSTEM <;> simp [he]
    · intro a hg
      simp [resolve_name, hp, hg]
    · intro e hg hne
      simp [resolve_name, hp, hg, hne]
    · intro hg
      simp [resolve_name, hp, hg]

/-- Witness for the amended C2 at a concrete environment: a host string
that parses as a numeric literal resolves on the fast path with no
name-service call. -/
theorem resolve_name_fast_path_witness :
    resolve_name ⟨fun _ => some 16951488, fun _ => .error (-2), 0⟩ "192.168.1.1" =
      (.ok 16951488, 0) :=
  (resolve_name_fast_path_and_categories
    ⟨fun _ => some 16951488, fun _ => .error (-2), 0⟩ "192.168.1.1").1 16951488 rfl

/-- Claim C3: address construction from a host string and port exists in
two side-by-side forms with the same resolution semantics: the raising
form throws a `system_error` carrying the resolution error code exactly
when resolution fails (and yields the resolved address otherwise), and the
non-raising form stores the resolution error into its output code
parameter (the no-error code on success) and assigns the resolved address
only on success, leaving the address zero-initialized on failure. -/
theorem inet_address_dual_ctor_forms (env : NetEnv) (s : String) (p : Nat) :
    (∀ e, inet_address.create env s p = .error e →
      inet_address.ofStringThrow env s p = .error ⟨e⟩ ∧
      inet_address.ofStringEc env s p = (e, ⟨sockaddrZero⟩)) ∧
    (∀ a, inet_address.create env s p = .ok a →
      inet_address.ofStringThrow env s p = .ok a ∧
      inet_address.ofStringEc env s p = (noErr, a)) := by
  constructor
  · intro e he
    constructor
    · simp [inet_address.ofStringThrow, he]
    · simp [inet_address.ofStringEc, he, errOf]
  · intro a ha
    constructor
    · simp [inet_address.ofStringThrow, ha]
    · simp [inet_address.ofStringEc, ha, errOf]

/-- Witness for C3 at a concrete environment: with a resolver that rejects
the host with `gai` status `-2` (`EAI_NONAME`), the raising form throws a
`system_error` carrying the `gai` error and the non-raising form reports
the same code with a zeroed address. -/
theorem inet_address_dual_ctor_forms_witness :
    inet_address.ofStringThrow ⟨fun _ => none, fun _ => .error (-2), 0⟩ "nohost" 80 =
      .error ⟨⟨.gai, -2⟩⟩ ∧
    inet_address.ofStringEc ⟨fun _ => none, fun _ => .error (-2), 0⟩ "nohost" 80 =
      (⟨.gai, -2⟩, ⟨sockaddrZero⟩) :=
  (inet_address_dual_ctor_forms ⟨fun _ => none, fun _ => .error (-2), 0⟩
    "nohost" 80).1 ⟨.gai, -2⟩ rfl

/-- Little-endian in-memory byte sequence of a stored 32-bit value. -/
def bytesLE32 (v : Nat) : List Nat :=
  [v % 256, v / 256 % 256, v / 65536 % 256, v / 16777216 % 256]

/-- Big-endian (network-order) byte sequence of a 32-bit host value. -/
def bytesBE32 (x : Nat) : List Nat :=
  [x / 16777216 % 256, x / 65536 % 256, x / 256 % 256, x % 256]

/-- Little-endian in-memory byte sequence of a stored 16-bit value. -/
def bytesLE16 (v : Nat) : List Nat := [v % 256, v / 256 % 256]

/-- Big-endian (network-order) byte sequence of a 16-bit host value. -/
def bytesBE16 (x : Nat) : List Nat := [x / 256 % 256, x % 256]

theorem bytesLE32_byteswap32 (y : Nat) :
    bytesLE32 (byteswap32 y) =
      [y / 16777216 % 256, y / 65536 % 256, y / 256 % 256, y % 256] := by
  obtain ⟨b0, b1, b2, b3, hb0, hb1, hb2, hb3, h0, h1, h2, h3⟩ :
      ∃ b0 b1 b2 b3, b0 < 256 ∧ b1 < 256 ∧ b2 < 256 ∧ b3 < 256 ∧
        y % 256 = b0 ∧ y / 256 % 256 = b1 ∧ y / 65536 % 256 = b2 ∧
        y / 16777216 % 256 = b3 :=
    ⟨y % 256, y / 256 % 256, y / 65536 % 256, y / 16777216 % 256,
      by omega, by omega, by omega, by omega, rfl, rfl, rfl, rfl⟩
  have hswap : byteswap32 y = b0 * 16777216 + b1 * 65536 + b2 * 256 + b3 := by
    rw [byteswap32, h0, h1, h2, h3]
  rw [hswap, bytesLE32, h0, h1, h2, h3]
  have e0 : (b0 * 16777216 + b1 * 65536 + b2 * 256 + b3) % 256 = b3 := by omega
  have e1 : (b0 * 16777216 + b1 * 65536 + b2 * 256 + b3) / 256 % 256 = b2 := by omega
  have e2 : (b0 * 16777216 + b1 * 65536 + b2 * 256 + b3) / 65536 % 256 = b1 := by omega
  have e3 : (b0 * 16777216 + b1 * 65536 + b2 * 256 + b3) / 16777216 % 256 = b0 := by
    omega
  rw [e0, e1, e2, e3]

theorem bytesLE16_byteswap16 (y : Nat) :
    bytesLE16 (byteswap16 y) = [y / 256 % 256, y % 256] := by
  obtain ⟨b0, b1, hb0, hb1, h0, h1⟩ :
      ∃ b0 b1, b0 < 256 ∧ b1 < 256 ∧ y % 256 = b0 ∧ y / 256 % 256 = b1 :=
    ⟨y % 256, y / 256 % 256, by omega, by omega, rfl, rfl⟩
  have hswap : byteswap16 y = b0 * 256 + b1 := by rw [byteswap16, h0, h1]
  rw [hswap, bytesLE16, h0, h1]
  have e0 : (b0 * 256 + b1) % 256 = b1 := by omega
  have e1 : (b0 * 256 + b1) / 256 % 256 = b0 := by omega
  rw [e0, e1]

/-- Claim C6: constructing an Internet address from a raw 32-bit host
value and 16-bit port stores `htonl(host)` and `htons(port)` with the
`AF_INET` family tag, and on a little-endian host the stored fields sit in
memory in network (big-endian) byte order: the little-endian memory bytes
of the stored values are exactly the big-endian bytes of the (32- resp.
16-bit reduced) inputs.  The model is an immutable value: nothing in the
embedding mutates an `inet_address` after construction. -/
theorem inet_address_network_byte_order (a p : Nat) :
    (inet_address.ofHostPort a p).addr_.sin_family = AF_INET ∧
    (inet_address.ofHostPort a p).addr_.sin_addr = htonl a ∧
    (inet_address.ofHostPort a p).addr_.sin_port = htons p ∧
    bytesLE32 (htonl a) = bytesBE32 (a % 4294967296) ∧
    bytesLE16 (htons p) = bytesBE16 (p % 65536) := by
  refine ⟨rfl, rfl, rfl, ?_, ?_⟩
  · rw [htonl, bytesLE32_byteswap32 (a % 4294967296), bytesBE32]
  · rw [htons, bytesLE16_byteswap16 (p % 65536), bytesBE16]

theorem ntohs_htons (p : Nat) : ntohs (htons p) = p % 65536 := by
  obtain ⟨b0, b1, hb0, hb1, h0, h1, hsum⟩ :
      ∃ b0 b1, b0 < 256 ∧ b1 < 256 ∧ p % 65536 % 256 = b0 ∧
        p % 65536 / 256 % 256 = b1 ∧ p % 65536 = b1 * 256 + b0 :=
    ⟨p % 65536 % 256, p % 65536 / 256 % 256, by omega, by omega, rfl, rfl, by omega⟩
  have hh : htons p = b0 * 256 + b1 := by rw [htons, byteswap16, h0, h1]
  rw [hh, ntohs, byteswap16, hsum]
  have e0 : (b0 * 256 + b1) % 65536 = b0 * 256 + b1 := by omega
  rw [e0]
  have e1 : (b0 * 256 + b1) % 256 = b1 := by omega
  have e2 : (b0 * 256 + b1) / 256 % 256 = b0 := by omega
  rw [e1, e2]

/-- Claim C7: the string rendering of a constructed Internet address is
the dotted-decimal text form of the (32-bit reduced) host, a colon, and
the port in decimal — the `host:port` shape — and the stream-output
operator produces exactly the same rendering (for every address, stream
output appends `to_string` to the stream). -/
theorem inet_address_render_host_port (host port : Nat) :
    (inet_address.ofHostPort host port).to_string =
      toString (host % 4294967296 / 16777216 % 256) ++ "." ++
        toString (host % 4294967296 / 65536 % 256) ++ "." ++
        toString (host % 4294967296 / 256 % 256) ++ "." ++
        toString (host % 4294967296 % 256) ++ ":" ++ toString (port % 65536) ∧
    (∀ (os : String) (a : inet_address),
      inet_address.print os a = os ++ a.to_string) := by
  constructor
  · have h := bytesLE32_byteswap32 (host % 4294967296)
    simp only [bytesLE32, bytesBE32, List.cons.injEq, and_true] at h
    obtain ⟨e0, e1, e2, e3⟩ := h
    simp only [inet_address.to_string, inet_address.ofHostPort, inet_address.port,
      inet_ntop_v4, htonl]
    rw [e0, e1, e2, e3, ntohs_htons]
  · intro os a
    apply String.ext
    simp [inet_address.print, inet_address.to_string, String.data_append,
      List.append_assoc]

/-! ## Handle factories: socket pair and clone

`stream_socket::clone` and `stream_socket_tmpl::pair`
(`stream_socket.h:135-140` and `322-330`) delegate to `socket::clone` and
`socket::pair`, whose definitions (in `socket.cpp`) are not among the
provided sources; those two base operations are modelled from the spec
against a small kernel state. -/

/-- The OS calls relevant to connection establishment, recorded as a
trace. -/
inductive Syscall where
  | socketpair (fam ty proto : Nat)
  | bind
  | listen
  | accept
  | connect
deriving DecidableEq, Repr

/-- The `SOCK_STREAM` communication type (`stream_socket::COMM_TYPE`). -/
def SOCK_STREAM : Nat := 1

/-- The `AF_UNIX` address-family tag. -/
def AF_UNIX : Nat := 1

/-- Kernel state seen by the handle factories: the next fresh descriptor
number, the peer map of mutually connected descriptors, the map from a
descriptor to the underlying OS-level connection it refers to, which
family/type combinations support `socketpair`, the `errno` the kernel
would report for an unsupported combination, and an optional forced
failure for descriptor duplication (`dup`). -/
structure Kernel where
  nextHandle : Nat
  peers : List (Nat × Nat)
  conn : List (Nat × Nat)
  pairSupported : Nat → Nat → Bool
  pairErrno : Int
  dupErr : Option ErrorCode

/-- The peer a descriptor is connected to, if any. -/
def peerOf (k : Kernel) (h : Nat) : Option Nat :=
  (k.peers.find? (fun q => q.1 == h)).map (·.2)

/-- The OS-level connection a descriptor refers to, if any. -/
def connOf (k : Kernel) (h : Nat) : Option Nat :=
  (k.conn.find? (fun q => q.1 == h)).map (·.2)

/-- Modelled from the spec: `socket::pair(domain, type, protocol)`
(declared in `socket.h`; definition not among the provided sources).  For
a family/type combination that supports pair creation the kernel allocates
two fresh descriptors that are already mutually connected — a direct
kernel-level pipe, with no bind/listen/accept/connect handshake — and
otherwise the call fails with the kernel's error code.  The trace of OS
calls made is returned alongside. -/
def socket_pair (k : Kernel) (fam ty proto : Nat) :
    Except ErrorCode (Nat × Nat) × Kernel × List Syscall :=
  if k.pairSupported fam ty then
    (.ok (k.nextHandle, k.nextHandle + 1),
     { k with
        nextHandle := k.nextHandle + 2,
        peers := (k.nextHandle, k.nextHandle + 1) :: (k.nextHandle + 1, k.nextHandle) ::
          k.peers,
        conn := (k.nextHandle, k.nextHandle) :: (k.nextHandle + 1, k.nextHandle) :: k.conn },
     [.socketpair fam ty proto])
  else
    (.error ⟨.system, k.pairErrno⟩, k, [.socketpair fam ty proto])

/-- Modelled from the spec: `socket::clone` (definition in `socket.cpp`,
not among the provided sources).  It duplicates the underlying OS
descriptor (`dup`): on success a fresh descriptor referring to the same
OS-level connection is returned and the kernel's view of the original
descriptor is untouched; an invalid (sentinel) handle or a failing `dup`
yields an error and leaves the kernel unchanged. -/
def socket_clone (k : Kernel) (h : Option Nat) : Except ErrorCode Nat × Kernel :=
  match h with
  | none => (.error ⟨.system, 9⟩, k)
  | some h =>
    match k.dupErr with
    | some e => (.error e, k)
    | none =>
      match connOf k h with
      | none => (.error ⟨.system, 9⟩, k)
      | some c =>
        (.ok k.nextHandle,
         { k with nextHandle := k.nextHandle + 1, conn := (k.nextHandle, c) :: k.conn })

/-- A `sockpp::stream_socket`: it owns one OS handle (`none` is the
`INVALID_SOCKET` sentinel of an unopened socket). -/
structure stream_socket where
  handle : Option Nat
deriving DecidableEq, Repr

/-- `stream_socket::clone` from `stream_socket.h:135-140`: call the base
`socket::clone`; if that fails return its error unchanged, otherwise wrap
the released handle in a new `stream_socket`. -/
def stream_socket.clone (k : Kernel) (s : stream_socket) :
    Except ErrorCode stream_socket × Kernel :=
  match socket_clone k s.handle with
  | (.error e, kk) => (.error e, kk)
  | (.ok h, kk) => (.ok ⟨some h⟩, kk)

/-- A `sockpp::stream_socket_tmpl` for address family `fam`: the socket
type is bound to the family at compile time (here: at the type level), and
it adds no runtime state beyond the base socket's handle. -/
structure stream_socket_tmpl (fam : Nat) where
  handle : Option Nat
deriving DecidableEq, Repr

/-- `stream_socket_tmpl::pair` from `stream_socket.h:322-330`: call the
base `socket::pair(ADDRESS_FAMILY, COMM_TYPE, protocol)`; if that fails
return its error code unchanged, otherwise wrap the two released handles
in typed stream sockets of the template's family. -/
def stream_socket_tmpl.pair (fam : Nat) (k : Kernel) (proto : Nat) :
    Except ErrorCode (stream_socket_tmpl fam × stream_socket_tmpl fam) ×
      Kernel × List Syscall :=
  match socket_pair k fam SOCK_STREAM proto with
  | (.error e, kk, tr) => (.error e, kk, tr)
  | (.ok (h1, h2), kk, tr) => (.ok (⟨some h1⟩, ⟨some h2⟩), kk, tr)

/-- Claim C4: for every address family, the typed factory
`stream_socket_tmpl::pair` either returns two stream sockets of that typed
family that are already mutually connected, or — when the family/type
combination does not support pair creation — returns the underlying
failure code unchanged; in both cases the only OS call in the trace is
`socketpair`: no bind, listen, accept or connect handshake is
performed. -/
theorem stream_socket_pair_typed (fam proto : Nat) (k : Kernel) :
    (k.pairSupported fam SOCK_STREAM = true →
      ∃ (s1 s2 : stream_socket_tmpl fam) (k' : Kernel) (h1 h2 : Nat),
        stream_socket_tmpl.pair fam k proto =
          (.ok (s1, s2), k', [.socketpair fam SOCK_STREAM proto]) ∧
        s1.handle = some h1 ∧ s2.handle = some h2 ∧
        peerOf k' h1 = some h2 ∧ peerOf k' h2 = some h1) ∧
    (k.pairSupported fam SOCK_STREAM = false →
      stream_socket_tmpl.pair fam k proto =
        (.error ⟨.system, k.pairErrno⟩, k, [.socketpair fam SOCK_STREAM proto])) ∧
    (∀ c ∈ (stream_socket_tmpl.pair fam k proto).2.2,
      c ≠ Syscall.bind ∧ c ≠ Syscall.listen ∧ c ≠ Syscall.accept ∧
        c ≠ Syscall.connect) := by
  refine ⟨?_, ?_, ?_⟩
  · intro hsup
    refine ⟨⟨some k.nextHandle⟩, ⟨some (k.nextHandle + 1)⟩,
      { k with
          nextHandle := k.nextHandle + 2,
          peers := (k.nextHandle, k.nextHandle + 1) ::
            (k.nextHandle + 1, k.nextHandle) :: k.peers,
          conn := (k.nextHandle, k.nextHandle) ::
            (k.nextHandle + 1, k.nextHandle) :: k.conn },
      k.nextHandle, k.nextHandle + 1, ?_, rfl, rfl, ?_, ?_⟩
    · simp [stream_socket_tmpl.pair, socket_pair, hsup]
    · simp [peerOf, List.find?]
    · have hne : (k.nextHandle == k.nextHandle + 1) = false := by
        simp
      simp [peerOf, List.find?, hne]
  · intro hsup
    simp [stream_socket_tmpl.pair, socket_pair, hsup]
  · intro c hc
    by_cases hsup : k.pairSupported fam SOCK_STREAM = true
    · simp [stream_socket_tmpl.pair, socket_pair, hsup] at hc
      simp [hc]
    · simp [stream_socket_tmpl.pair, socket_pair,
        Bool.of_not_eq_true hsup] at hc
      simp [hc]

/-- Witness for C4 at a concrete kernel in which the Unix-domain family
supports pair creation: the factory yields two mutually connected typed
sockets and a trace consisting of the single `socketpair` call. -/
theorem stream_socket_pair_typed_witness :
    ∃ (s1 s2 : stream_socket_tmpl AF_UNIX) (k' : Kernel) (h1 h2 : Nat),
      stream_socket_tmpl.pair AF_UNIX
          ⟨10, [], [], fun f t => f == AF_UNIX && t == SOCK_STREAM, 97, none⟩ 0 =
        (.ok (s1, s2), k', [.socketpair AF_UNIX SOCK_STREAM 0]) ∧
      s1.handle = some h1 ∧ s2.handle = some h2 ∧
      peerOf k' h1 = some h2 ∧ peerOf k' h2 = some h1 :=
  (stream_socket_pair_typed AF_UNIX 0
    ⟨10, [], [], fun f t => f == AF_UNIX && t == SOCK_STREAM, 97, none⟩).1 rfl

/-- Claim C5: `stream_socket::clone` either propagates the base
duplication error unchanged, or returns a new, independently owned stream
socket whose fresh handle refers to the same underlying OS-level
connection as the original — descriptor duplication, not a data copy —
while the original descriptor still refers to its connection unchanged
after the operation. -/
theorem stream_socket_clone_dup (k : Kernel) (s : stream_socket) :
    (∀ e k1, socket_clone k s.handle = (.error e, k1) →
      stream_socket.clone k s = (.error e, k1)) ∧
    (∀ h c, s.handle = some h → k.dupErr = none → connOf k h = some c →
      h < k.nextHandle →
      ∃ k', stream_socket.clone k s = (.ok ⟨some k.nextHandle⟩, k') ∧
        k.nextHandle ≠ h ∧
        connOf k' k.nextHandle = some c ∧
        connOf k' h = some c ∧ connOf k' h = connOf k h) := by
  constructor
  · intro e k1 he
    simp [stream_socket.clone, he]
  · intro h c hh hdup hconn hlt
    have hclone : socket_clone k s.handle =
        (.ok k.nextHandle,
         { k with nextHandle := k.nextHandle + 1, conn := (k.nextHandle, c) :: k.conn }) := by
      simp [socket_clone, hh, hdup, hconn]
    refine
      ⟨{ k with nextHandle := k.nextHandle + 1, conn := (k.nextHandle, c) :: k.conn },
        ?_, by omega, ?_, ?_, ?_⟩
    · simp [stream_socket.clone, hclone]
    · simp [connOf, List.find?]
    · have hne : (k.nextHandle == h) = false := by
        simp; omega
      simpa [connOf, List.find?, hne] using hconn
    · have hne : (k.nextHandle == h) = false := by
        simp; omega
      simp [connOf, List.find?, hne]

/-- Witness for C5 at a concrete kernel: duplicating the descriptor 3
(which refers to connection 0) yields the fresh descriptor 5 referring to
the same connection, with descriptor 3 unchanged. -/
theorem stream_socket_clone_dup_witness :
    ∃ k', stream_socket.clone ⟨5, [], [(3, 0)], fun _ _ => false, 0, none⟩ ⟨some 3⟩ =
        (.ok ⟨some 5⟩, k') ∧
      (5 : Nat) ≠ 3 ∧
      connOf k' 5 = some 0 ∧
      connOf k' 3 = some 0 ∧
      connOf k' 3 = connOf ⟨5, [], [(3, 0)], fun _ _ => false, 0, none⟩ 3 :=
  (stream_socket_clone_dup ⟨5, [], [(3, 0)], fun _ _ => false, 0, none⟩ ⟨some 3⟩).2
    3 0 rfl rfl rfl (by decide)

/-! ## Timeouts (`stream_socket.h:193-196`, `241-244`) -/

/-- A `std::chrono::duration` value: a tick count over a period of
`num / den` seconds (`den > 0` for every `std::ratio`). -/
structure Duration where
  count : Int
  num : Int
  den : Int
deriving DecidableEq, Repr

/-- `std::chrono::duration_cast` of a duration to `microseconds`: the tick
count is scaled by the ratio of the two periods, with the integer division
truncating toward zero (C++ integer division), i.e. the duration converted
to whole microseconds, truncated. -/
def duration_cast_us (d : Duration) : Int :=
  Int.tdiv (d.count * d.num * 1000000) d.den

/-- Per-socket, per-direction timeout state, in microseconds (`none` means
no configured timeout: calls block indefinitely). -/
structure SockState where
  read_to : Option Int
  write_to : Option Int
deriving DecidableEq, Repr

/-- Modelled from the spec: `stream_socket::read_timeout(microseconds)`
(declared at `stream_socket.h:185`; definition not among the provided
sources) — stores the given number of microseconds as the socket's
read-direction timeout. -/
def read_timeout_us (t : Int) (st : SockState) : SockState :=
  { st with read_to := some t }

/-- Modelled from the spec: `stream_socket::write_timeout(microseconds)`
(declared at `stream_socket.h:233`; definition not among the provided
sources). -/
def write_timeout_us (t : Int) (st : SockState) : SockState :=
  { st with write_to := some t }

/-- The generic template overload `stream_socket::read_timeout(duration)`
from `stream_socket.h:193-196`:
`return read_timeout(duration_cast<microseconds>(to));`. -/
def read_timeout_dur (d : Duration) (st : SockState) : SockState :=
  read_timeout_us (duration_cast_us d) st

/-- The generic template overload `stream_socket::write_timeout(duration)`
from `stream_socket.h:241-244`. -/
def write_timeout_dur (d : Duration) (st : SockState) : SockState :=
  write_timeout_us (duration_cast_us d) st

/-- Claim C9: for every duration (any tick count and any period with
positive denominator) and every socket state, setting a read or write
timeout with the duration is exactly setting the corresponding
fixed-resolution (microseconds) timeout with the converted value; the
conversion is truncation to whole microseconds: its magnitude is the
floor of the magnitude of `count * num * 10^6 / den`, and it is
nonnegative whenever the duration is. -/
theorem timeout_duration_truncation (d : Duration) (st : SockState)
    (hden : 0 < d.den) :
    read_timeout_dur d st = read_timeout_us (duration_cast_us d) st ∧
    write_timeout_dur d st = write_timeout_us (duration_cast_us d) st ∧
    (duration_cast_us d).natAbs = (d.count * d.num * 1000000).natAbs / d.den.natAbs ∧
    (0 ≤ d.count * d.num → 0 ≤ duration_cast_us d) := by
  refine ⟨rfl, rfl, Int.natAbs_tdiv _ _, ?_⟩
  intro hnn
  exact Int.tdiv_nonneg (by positivity) (le_of_lt hden)

/-- Witness for C9: 2500 nanoseconds is converted to 2 whole microseconds
(truncated) and stored as the read timeout. -/
theorem timeout_duration_truncation_witness :
    read_timeout_dur ⟨2500, 1, 1000000000⟩ ⟨none, none⟩ =
      read_timeout_us (duration_cast_us ⟨2500, 1, 1000000000⟩) ⟨none, none⟩ ∧
    (duration_cast_us ⟨2500, 1, 1000000000⟩).natAbs =
      ((2500 : Int) * 1 * 1000000).natAbs / ((1000000000 : Int)).natAbs :=
  ⟨(timeout_duration_truncation ⟨2500, 1, 1000000000⟩ ⟨none, none⟩ (by decide)).1,
    (timeout_duration_truncation ⟨2500, 1, 1000000000⟩ ⟨none, none⟩ (by decide)).2.2.1⟩

/-! ## The Unix-domain echo client (`unecho.cpp`) -/

/-- The behaviour of the connection and of the terminal as the echo client
observes it: the result of connecting to a path; for iteration `i`, the
result of `conn.write(s)` on the line `s` and the result of
`conn.read_n(&sret[0], N)` (the returned count together with the buffer
contents after the read); and whether the socket is still in a good state
when the loop ends (`operator bool` of the socket). -/
structure EchoEnv where
  connect : String → Except ErrorCode Unit
  writeRes : Nat → String → Except Errc Nat
  readRes : Nat → Nat → Except Errc Nat × String
  connOk : Bool

/-- The default Unix socket path of the client (`unecho.cpp:56`, POSIX
branch). -/
def DFLT_PATH : String := "/tmp/unechosvr.sock"

/-- The main loop of `unecho.cpp:72-88`: take the next line `s`; stop if
the line is empty; write it, stopping on a write error or a count other
than `s.length()`; read the same number of bytes back, stopping on a read
error or short count; print the read-back buffer and continue.  `i` is the
iteration index, `acc` the lines echoed so far (the client's data
output). -/
def echo_loop (env : EchoEnv) : List String → Nat → List String → List String
  | [], _, acc => acc
  | s :: rest, i, acc =>
    if s.isEmpty then acc
    else
      match env.writeRes i s with
      | .error _ => acc
      | .ok m =>
        if m ≠ s.length then acc
        else
          match (env.readRes i s.length).1 with
          | .error _ => acc
          | .ok r =>
            if r ≠ s.length then acc
            else echo_loop env rest (i + 1) (acc ++ [(env.readRes i s.length).2])

/-- `main` of `unecho.cpp:49-91`: the target path is the first program
argument if given, else the default path; a failed connect reports the
error and exits with status 1; otherwise the echo loop runs over the input
lines, and the final exit status is `1` exactly when the socket ends in a
failed state (`return (!conn) ? 1 : 0;`).  Returns the exit status and the
echoed lines printed. -/
def unecho_main (env : EchoEnv) (args : List String) (lines : List String) :
    Nat × List String :=
  let path := match args with | [] => DFLT_PATH | p :: _ => p
  match env.connect path with
  | .error _ => (1, [])
  | .ok _ => (if env.connOk then 0 else 1, echo_loop env lines 0 [])

/-- Whether an I/O result is a success carrying exactly the count `n`. -/
def isOkLen (r : Except Errc Nat) (n : Nat) : Bool :=
  match r with
  | .ok m => m == n
  | .error _ => false

/-- A loop round that completes in full: a nonempty line, a write of the
whole line, and a read-back of the same length. -/
def roundOk (env : EchoEnv) (i : Nat) (s : String) : Bool :=
  !s.isEmpty && isOkLen (env.writeRes i s) s.length &&
    isOkLen (env.readRes i s.length).1 s.length

/-- All rounds for the given lines complete in full, starting at iteration
`i`. -/
def allOkFrom (env : EchoEnv) : Nat → List String → Bool
  | _, [] => true
  | i, s :: rest => roundOk env i s && allOkFrom env (i + 1) rest

/-- The buffers read back (and printed) for the given lines, starting at
iteration `i`. -/
def echoesFrom (env : EchoEnv) : Nat → List String → List String
  | _, [] => []
  | i, s :: rest => (env.readRes i s.length).2 :: echoesFrom env (i + 1) rest

/-- A nonempty line whose round fails: the write errors or is short, or
the read-back errors or is short. -/
def badRound (env : EchoEnv) (i : Nat) (s : String) : Bool :=
  !s.isEmpty &&
    !(isOkLen (env.writeRes i s) s.length &&
      isOkLen (env.readRes i s.length).1 s.length)

theorem isOkLen_iff (r : Except Errc Nat) (n : Nat) :
    isOkLen r n = true ↔ r = .ok n := by
  cases r <;> simp [isOkLen]

theorem echo_loop_ok_run (env : EchoEnv) :
    ∀ (pre tail : List String) (i : Nat) (acc : List String),
      allOkFrom env i pre = true →
      echo_loop env (pre ++ tail) i acc =
        echo_loop env tail (i + pre.length) (acc ++ echoesFrom env i pre) := by
  intro pre
  induction pre with
  | nil => intro tail i acc _; simp [echoesFrom]
  | cons s tl ih =>
    intro tail i acc hok
    simp only [allOkFrom, Bool.and_eq_true] at hok
    obtain ⟨hr, htl⟩ := hok
    simp only [roundOk, Bool.and_eq_true, Bool.not_eq_true', isOkLen_iff] at hr
    obtain ⟨⟨hne, hw⟩, hrd⟩ := hr
    have step : echo_loop env ((s :: tl) ++ tail) i acc =
        echo_loop env (tl ++ tail) (i + 1) (acc ++ [(env.readRes i s.length).2]) := by
      simp [echo_loop, hne, hw, hrd]
    rw [step, ih tail (i + 1) (acc ++ [(env.readRes i s.length).2]) htl]
    simp [echoesFrom, Nat.add_assoc, Nat.add_comm 1 tl.length]

/-- Claim C8 counterexample: with an environment in which the connection
succeeds, every write and read-back of every line succeeds in full, and
the socket never enters a failed state, the client processes the single
input line `"y"` and echoes it — but on the input `["", "y"]` it echoes
nothing: it stops at the empty line even though no write/read error
occurred and input remains, so the loop's stop conditions are not limited
to write/read errors and end of input. -/
theorem unecho_blank_line_cx :
    unecho_main
        ⟨fun _ => .ok (), fun _ s => .ok s.length,
          fun _ n => (.ok n, String.mk (List.replicate n 'y')), true⟩ [] ["y"] =
      (0, ["y"]) ∧
    unecho_main
        ⟨fun _ => .ok (), fun _ s => .ok s.length,
          fun _ n => (.ok n, String.mk (List.replicate n 'y')), true⟩ [] ["", "y"] =
      (0, []) := by
  constructor <;> rfl

/-- Claim C8 (amended): the echo client connects to the caller-supplied
filesystem path, defaulting to `/tmp/unechosvr.sock` when no argument is
given, and exits with status 1 when the connect fails; otherwise it
repeatedly reads one line of input, writes it over the stream, performs a
whole-buffer read of the same length back and prints the echoed text; it
stops on end of input, on an empty input line, or on any write/read error
or short transfer (echoing exactly the lines before the stop), and its
final exit status is non-zero exactly when the socket ended in a failed
state. -/
theorem unecho_main_behaviour (env : EchoEnv) (_args lines : List String) :
    (∀ e, env.connect DFLT_PATH = .error e → unecho_main env [] lines = (1, [])) ∧
    (∀ e p ps, env.connect p = .error e → unecho_main env (p :: ps) lines = (1, [])) ∧
    (env.connect DFLT_PATH = .ok () →
      (unecho_main env [] lines).1 = if env.connOk then 0 else 1) ∧
    (∀ p ps, env.connect p = .ok () →
      (unecho_main env (p :: ps) lines).1 = if env.connOk then 0 else 1) ∧
    (env.connect DFLT_PATH = .ok () → allOkFrom env 0 lines = true →
      (unecho_main env [] lines).2 = echoesFrom env 0 lines) ∧
    (∀ pre s post, env.connect DFLT_PATH = .ok () → lines = pre ++ s :: post →
      allOkFrom env 0 pre = true →
      (s.isEmpty = true → (unecho_main env [] lines).2 = echoesFrom env 0 pre) ∧
      (badRound env pre.length s = true →
        (unecho_main env [] lines).2 = echoesFrom env 0 pre)) := by
  refine ⟨?_, ?_, ?_, ?_, ?_, ?_⟩
  · intro e he
    simp [unecho_main, he]
  · intro e p ps he
    simp [unecho_main, he]
  · intro hc
    simp [unecho_main, hc]
  · intro p ps hc
    simp [unecho_main, hc]
  · intro hc hok
    have h := echo_loop_ok_run env lines [] 0 [] hok
    simp only [List.append_nil] at h
    simp [unecho_main, hc, h, echo_loop]
  · intro pre s post hc hsplit hok
    have h := echo_loop_ok_run env pre (s :: post) 0 [] hok
    constructor
    · intro hemp
      have hstop : echo_loop env (s :: post) pre.length (echoesFrom env 0 pre) =
          echoesFrom env 0 pre := by
        simp [echo_loop, hemp]
      simp [unecho_main, hc, hsplit, h, hstop]
    · intro hbad
      simp only [badRound, Bool.and_eq_true, Bool.not_eq_true',
        Bool.and_eq_false_iff] at hbad
      obtain ⟨hne, hfail⟩ := hbad
      have hstop : echo_loop env (s :: post) pre.length (echoesFrom env 0 pre) =
          echoesFrom env 0 pre := by
        rcases hfail with hw | hr
        · rcases hwe : env.writeRes pre.length s with e | m
          · simp [echo_loop, hne, hwe]
          · have hm : m ≠ s.length := by
              intro hEq
              rw [hwe, isOkLen, hEq] at hw
              simp at hw
            simp [echo_loop, hne, hwe, hm]
        · rcases hwe : env.writeRes pre.length s with e | m
          · simp [echo_loop, hne, hwe]
          · by_cases hm : m = s.length
            · subst hm
              rcases hre : (env.readRes pre.length s.length).1 with e | r
              · simp [echo_loop, hne, hwe, hre]
              · have hrneq : r ≠ s.length := by
                  intro hEq
                  rw [hre, isOkLen, hEq] at hr
                  simp at hr
                simp [echo_loop, hne, hwe, hre, hrneq]
            · simp [echo_loop, hne, hwe, hm]
      simp [unecho_main, hc, hsplit, h, hstop]

/-- Witness for C8 at a concrete environment and input: the client
connects to the default path, echoes both lines of `["ab", "c"]` in order,
and exits with status 0. -/
theorem unecho_main_behaviour_witness :
    (unecho_main
        ⟨fun _ => .ok (), fun _ s => .ok s.length,
          fun _ n => (.ok n, String.mk (List.replicate n 'z')), true⟩ []
        ["ab", "c"]).2 =
      echoesFrom
        ⟨fun _ => .ok (), fun _ s => .ok s.length,
          fun _ n => (.ok n, String.mk (List.replicate n 'z')), true⟩ 0 ["ab", "c"] :=
  (unecho_main_behaviour
    ⟨fun _ => .ok (), fun _ s => .ok s.length,
      fun _ n => (.ok n, String.mk (List.replicate n 'z')), true⟩ []
    ["ab", "c"]).2.2.2.2.1 rfl (by decide)

end Sockpp
